import Mathlib

/-!
Verification development for the conversation-engine core of the repository:
shallow embeddings of the Rust sources in `codex-rs/protocol/src/protocol.rs`,
`codex-rs/core/src/conversation_manager.rs` and `codex-rs/arg0/src/lib.rs`,
together with theorems settling the specification claims about them.

Machine integers (`u64`, `usize`, `u32`) are modelled as `Nat`; `i32` as `Int`.
Rust `saturating_sub` on unsigned integers coincides with truncated `Nat`
subtraction. Filesystem paths compared component-wise (Rust `Path::starts_with`)
are modelled as lists of components.
-/

namespace Codex

/-! ## Paths and writable roots (`protocol.rs`, `WritableRoot`) -/

/-- A filesystem path, modelled as its list of components (all paths that the
sandbox logic manipulates are absolute, so the leading root component is left
implicit). Rust `Path::starts_with` is component-wise list-prefix. -/
abbrev FsPath := List String

/-- Embedding of `WritableRoot` from `protocol.rs`: a writable root path with
subpaths that remain read-only. -/
structure WritableRoot where
  root : FsPath
  read_only_subpaths : List FsPath
deriving DecidableEq, Repr

/-- Embedding of `WritableRoot::is_path_writable` from `protocol.rs`. -/
def WritableRoot.is_path_writable (w : WritableRoot) (path : FsPath) : Bool :=
  if ¬ (List.isPrefixOf w.root path) then false
  else if w.read_only_subpaths.any (fun subpath => List.isPrefixOf subpath path) then false
  else true

/-! ## Sandbox policies (`protocol.rs`, `SandboxPolicy`) -/

/-- Embedding of `SandboxPolicy` from `protocol.rs`, polymorphic in the type
used to represent `PathBuf` (component lists for the sandbox model, raw strings
for the wire model). -/
inductive SandboxPolicy (π : Type) where
  | DangerFullAccess : SandboxPolicy π
  | ReadOnly : SandboxPolicy π
  | WorkspaceWrite
      (writable_roots : List π)
      (network_access : Bool)
      (exclude_tmpdir_env_var : Bool)
      (exclude_slash_tmp : Bool) : SandboxPolicy π
deriving DecidableEq, Repr

/-- The ambient process state read by `get_writable_roots_with_cwd`:
whether the target is Unix (`cfg!(unix)`), the value of the `TMPDIR`
environment variable (`none` when unset; the empty component list when set to
the empty string), and which paths are directories (`Path::is_dir`). -/
structure SandboxEnv where
  unix : Bool
  tmpdir : Option FsPath
  isDir : FsPath → Bool

/-- Embedding of `SandboxPolicy::get_writable_roots_with_cwd` from
`protocol.rs`, with the process state passed explicitly. -/
def SandboxPolicy.get_writable_roots_with_cwd
    (p : SandboxPolicy FsPath) (cwd : FsPath) (env : SandboxEnv) : List WritableRoot :=
  match p with
  | .DangerFullAccess => []
  | .ReadOnly => []
  | .WorkspaceWrite writable_roots _network_access exclude_tmpdir_env_var exclude_slash_tmp =>
    let roots := writable_roots ++ [cwd]
    let roots :=
      if env.unix && !exclude_slash_tmp && env.isDir ["tmp"] then roots ++ [["tmp"]]
      else roots
    let roots :=
      match env.tmpdir with
      | some tmpdir => if !exclude_tmpdir_env_var && tmpdir ≠ [] then roots ++ [tmpdir] else roots
      | none => roots
    roots.map (fun writable_root =>
      let top_level_git := writable_root ++ [".git"]
      { root := writable_root
        read_only_subpaths := if env.isDir top_level_git then [top_level_git] else [] })

/-- C1: `WritableRoot::is_path_writable` returns `true` exactly when the path
descends from the root (component-wise prefix) and descends from none of the
read-only subpaths. -/
theorem is_path_writable_iff (w : WritableRoot) (p : FsPath) :
    w.is_path_writable p = true ↔
      (w.root <+: p ∧ ∀ s ∈ w.read_only_subpaths, ¬ (s <+: p)) := by
  simp only [WritableRoot.is_path_writable]
  by_cases hroot : List.isPrefixOf w.root p
  · simp only [hroot, not_true_eq_false, if_false]
    by_cases hsub : w.read_only_subpaths.any (fun subpath => List.isPrefixOf subpath p)
    · simp only [hsub, if_true]
      constructor
      · intro h; exact absurd h (by simp)
      · rintro ⟨-, hnone⟩
        rcases List.any_eq_true.mp hsub with ⟨s, hs, hpre⟩
        exact absurd (List.isPrefixOf_iff_prefix.mp hpre) (hnone s hs)
    · simp only [hsub, if_false]
      constructor
      · intro _
        refine ⟨List.isPrefixOf_iff_prefix.mp hroot, ?_⟩
        intro s hs hpre
        exact hsub (List.any_eq_true.mpr ⟨s, hs, List.isPrefixOf_iff_prefix.mpr hpre⟩)
      · intro _; rfl
  · simp only [hroot, not_false_eq_true, if_true]
    constructor
    · intro h; exact absurd h (by simp)
    · rintro ⟨hpre, -⟩
      exact absurd (List.isPrefixOf_iff_prefix.mpr hpre) hroot

/-- Closed witness for C1 at a concrete root, subpath list and path. -/
theorem is_path_writable_iff_witness :
    WritableRoot.is_path_writable
      ⟨["home", "proj"], [["home", "proj", ".git"]]⟩ ["home", "proj", "src"] = true :=
  (is_path_writable_iff ⟨["home", "proj"], [["home", "proj", ".git"]]⟩
      ["home", "proj", "src"]).mpr (by decide)

/-- C2: on a `WorkspaceWrite` policy the computed writable roots are exactly the
configured roots, then `cwd`, then `/tmp` (on Unix, when not excluded and a
directory), then the value of `TMPDIR` (when not excluded, set and non-empty);
and each root carries `<root>/.git` as its sole read-only subpath exactly when
that path is a directory. -/
theorem get_writable_roots_with_cwd_workspace_write
    (writable_roots : List FsPath) (network_access exclude_tmpdir_env_var exclude_slash_tmp : Bool)
    (cwd : FsPath) (env : SandboxEnv) :
    SandboxPolicy.get_writable_roots_with_cwd
        (.WorkspaceWrite writable_roots network_access exclude_tmpdir_env_var exclude_slash_tmp)
        cwd env =
      (writable_roots ++ [cwd]
        ++ (if env.unix = true ∧ exclude_slash_tmp = false ∧ env.isDir ["tmp"] = true
            then [["tmp"]] else [])
        ++ (match env.tmpdir with
            | some tmpdir =>
              if exclude_tmpdir_env_var = false ∧ tmpdir ≠ [] then [tmpdir] else []
            | none => [])).map
        (fun r =>
          { root := r
            read_only_subpaths :=
              if env.isDir (r ++ [".git"]) then [r ++ [".git"]] else [] }) := by
  simp only [SandboxPolicy.get_writable_roots_with_cwd]
  rcases env with ⟨u, tm, d⟩
  rcases tm with _ | ⟨t⟩
  · cases u <;> cases exclude_slash_tmp <;> cases exclude_tmpdir_env_var <;>
      cases hdir : d ["tmp"] <;> simp [hdir, List.append_assoc]
  · by_cases ht : t = [] <;>
      cases u <;> cases exclude_slash_tmp <;> cases exclude_tmpdir_env_var <;>
      cases hdir : d ["tmp"] <;> simp [hdir, ht, List.append_assoc]

/-- Closed witness for C2 at the spec's scenario 5: `cwd = /proj`, `/tmp` is a
directory, `TMPDIR = /var/folders/xx`, `/proj/.git` is a directory, no
configured roots, all excludes false. -/
theorem get_writable_roots_with_cwd_workspace_write_witness :
    SandboxPolicy.get_writable_roots_with_cwd
        (.WorkspaceWrite [] false false false) ["proj"]
        ⟨true, some ["var", "folders", "xx"],
          fun p => decide (p = ["tmp"] ∨ p = ["proj", ".git"])⟩ =
      [⟨["proj"], [["proj", ".git"]]⟩, ⟨["tmp"], []⟩, ⟨["var", "folders", "xx"], []⟩] := by
  rw [get_writable_roots_with_cwd_workspace_write]
  decide

/-- C10: the `DangerFullAccess` and `ReadOnly` sandbox policies report no
writable roots at all, for every `cwd` and every process state. -/
theorem get_writable_roots_with_cwd_no_roots (cwd : FsPath) (env : SandboxEnv) :
    SandboxPolicy.get_writable_roots_with_cwd .DangerFullAccess cwd env = [] ∧
      SandboxPolicy.get_writable_roots_with_cwd .ReadOnly cwd env = [] :=
  ⟨rfl, rfl⟩

/-! ## History truncation (`conversation_manager.rs`) -/

/-- Modelled from the spec: a transcript `ResponseItem` is a message with a
role and content, a reasoning item, or a function-call record (the
`codex_protocol::models::ResponseItem` type itself is outside the sources; its
shape is taken from the spec's data model and from the constructor usage in
`conversation_manager.rs`). -/
inductive ResponseItem where
  | Message (role : String) (content : String)
  | Reasoning (summary : String)
  | FunctionCall (name : String) (call_id : String)
deriving DecidableEq, Repr

/-- Whether an item is a `Message` with role `"user"`, the predicate counted by
the truncation loop in `conversation_manager.rs`. -/
def isUserMessage : ResponseItem → Bool
  | .Message role _ => role == "user"
  | _ => false

/-- Number of user messages in a list of items. -/
def countUser (items : List ResponseItem) : Nat :=
  items.countP isUserMessage

/-- The backwards scan of `truncate_after_dropping_last_messages`: walk the
reversed, index-annotated item list, counting user messages; return the index
at which the count reaches `n`. -/
def cutIndex : List (Nat × ResponseItem) → Nat → Option Nat
  | [], _ => none
  | (idx, item) :: rest, n =>
    if isUserMessage item then
      if n = 1 then some idx else cutIndex rest (n - 1)
    else cutIndex rest n

/-- Embedding of `truncate_after_dropping_last_messages` from
`conversation_manager.rs`. -/
def truncate_after_dropping_last_messages (items : List ResponseItem) (n : Nat) :
    List ResponseItem :=
  if n = 0 ∨ items = [] then items
  else
    match cutIndex items.enum.reverse n with
    | some cut => items.take cut
    | none => []

theorem enumFrom_append_singleton (ys : List ResponseItem) (y : ResponseItem) (i : Nat) :
    List.enumFrom i (ys ++ [y]) = List.enumFrom i ys ++ [(i + ys.length, y)] := by
  induction ys generalizing i with
  | nil => simp [List.enumFrom]
  | cons a as ih =>
    have harith : i + 1 + as.length = i + (as.length + 1) := by omega
    simp only [List.cons_append, List.append_eq, List.enumFrom, ih (i + 1), List.length_cons,
      harith]

theorem enum_append_singleton (ys : List ResponseItem) (y : ResponseItem) :
    (ys ++ [y]).enum = ys.enum ++ [(ys.length, y)] := by
  simpa [List.enum] using enumFrom_append_singleton ys y 0

theorem cutIndex_none_of_count_lt (items : List ResponseItem) (n : Nat)
    (hn : 1 ≤ n) (hcount : countUser items < n) :
    cutIndex items.enum.reverse n = none := by
  induction items using List.reverseRecOn generalizing n with
  | nil => simp [cutIndex]
  | append_singleton ys y ih =>
    rw [enum_append_singleton, List.reverse_append]
    simp only [List.reverse_cons, List.reverse_nil, List.nil_append, List.singleton_append,
      cutIndex]
    have hcount' : countUser ys + (if isUserMessage y then 1 else 0) = countUser (ys ++ [y]) := by
      simp [countUser, List.countP_append, List.countP_cons]
    by_cases hy : isUserMessage y
    · simp only [hy, if_true]
      have hne : ¬ n = 1 := by
        intro h1
        rw [hy, if_pos rfl] at hcount'
        omega
      rw [if_neg hne]
      exact ih (n - 1) (by omega) (by rw [hy, if_pos rfl] at hcount'; omega)
    · simp only [hy, if_false]
      rw [if_neg hy] at hcount'
      exact ih n hn (by omega)

theorem countUser_drop_pos (ys : List ResponseItem) (k : Nat) (hk : k < ys.length)
    (huser : isUserMessage (ys.get ⟨k, hk⟩) = true) :
    1 ≤ countUser (ys.drop k) := by
  have hdrop : ys.drop k = ys.get ⟨k, hk⟩ :: ys.drop (k + 1) := by
    exact List.drop_eq_getElem_cons hk
  rw [countUser, hdrop, List.countP_cons, huser]
  simp

theorem cutIndex_some_of_user_at (items : List ResponseItem) (n k : Nat)
    (hk : k < items.length) (huser : isUserMessage (items.get ⟨k, hk⟩) = true)
    (hcount : countUser (items.drop k) = n) :
    cutIndex items.enum.reverse n = some k := by
  induction items using List.reverseRecOn generalizing n k with
  | nil => simp at hk
  | append_singleton ys y ih =>
    rw [enum_append_singleton, List.reverse_append]
    simp only [List.reverse_cons, List.reverse_nil, List.nil_append, List.singleton_append,
      cutIndex]
    have hlen : (ys ++ [y]).length = ys.length + 1 := by simp
    by_cases hk' : k = ys.length
    · subst hk'
      have hy : isUserMessage y = true := by
        have hget : (ys ++ [y]).get ⟨ys.length, hk⟩ = y := by
          simp [List.get_eq_getElem, List.getElem_append_right]
        rwa [hget] at huser
      have hdrop : (ys ++ [y]).drop ys.length = [y] := by
        rw [List.drop_append_of_le_length (le_refl _)]
        simp
      rw [hdrop] at hcount
      have hn1 : n = 1 := by
        simp [countUser, List.countP_cons, hy] at hcount
        omega
      simp [hy, hn1]
    · have hklt : k < ys.length := by
        rw [hlen] at hk
        omega
      have hget : (ys ++ [y]).get ⟨k, hk⟩ = ys.get ⟨k, hklt⟩ := by
        simp only [List.get_eq_getElem]
        exact List.getElem_append_left hklt
      rw [hget] at huser
      have hdrop : (ys ++ [y]).drop k = ys.drop k ++ [y] := by
        rw [List.drop_append_of_le_length (le_of_lt hklt)]
      rw [hdrop] at hcount
      have hcount' : countUser (ys.drop k) + (if isUserMessage y then 1 else 0) = n := by
        simp only [countUser, List.countP_append, List.countP_cons, List.countP_nil] at hcount ⊢
        omega
      have husers : 1 ≤ countUser (ys.drop k) := countUser_drop_pos ys k hklt huser
      by_cases hy : isUserMessage y = true
      · simp only [hy, if_true] at hcount' ⊢
        have hne : ¬ n = 1 := by omega
        rw [if_neg hne]
        exact ih (n - 1) k hklt huser (by omega)
      · simp only [Bool.not_eq_true] at hy
        simp [hy] at hcount' ⊢
        exact ih n k hklt huser (by omega)

/-- The transcript of the spec's truncation scenarios:
`[u1, a1, a2, u2, a3, r1, f1, a4]`. -/
def exampleItems : List ResponseItem :=
  [.Message "user" "u1", .Message "assistant" "a1", .Message "assistant" "a2",
   .Message "user" "u2", .Message "assistant" "a3", .Reasoning "s",
   .FunctionCall "tool" "c1", .Message "assistant" "a4"]

/-- C3: `truncate_after_dropping_last_messages` returns the input unchanged for
`n = 0`; returns `[]` when fewer than `n` user messages exist; returns the
prefix `[0, k)` whenever index `k` holds a user message and the suffix from `k`
contains exactly `n` user messages (that is, `k` is the index of the `n`-th
user message counted from the end); and on the spec's example transcript
returns `[u1, a1, a2]` for `n = 1` and `[]` for `n = 2`. -/
theorem truncate_after_dropping_last_messages_correct (items : List ResponseItem) (n : Nat) :
    (n = 0 → truncate_after_dropping_last_messages items n = items) ∧
    (countUser items < n → truncate_after_dropping_last_messages items n = []) ∧
    (∀ k, ∀ hk : k < items.length, isUserMessage (items.get ⟨k, hk⟩) = true →
      countUser (items.drop k) = n →
      truncate_after_dropping_last_messages items n = items.take k) ∧
    truncate_after_dropping_last_messages exampleItems 1 =
      [.Message "user" "u1", .Message "assistant" "a1", .Message "assistant" "a2"] ∧
    truncate_after_dropping_last_messages exampleItems 2 = [] := by
  refine ⟨?_, ?_, ?_, by decide, by decide⟩
  · intro h0
    simp [truncate_after_dropping_last_messages, h0]
  · intro hlt
    have hn : 1 ≤ n := by omega
    by_cases hempty : items = []
    · simp [truncate_after_dropping_last_messages, hempty]
    · rw [truncate_after_dropping_last_messages, if_neg (by simp [hempty]; omega),
        cutIndex_none_of_count_lt items n hn hlt]
  · intro k hk huser hcount
    have hn : 1 ≤ n := le_of_le_of_eq (countUser_drop_pos items k hk huser) hcount
    have hempty : items ≠ [] := by
      intro h
      rw [h] at hk
      simp at hk
    rw [truncate_after_dropping_last_messages,
      if_neg (by simp [hempty]; omega),
      cutIndex_some_of_user_at items n k hk huser hcount]

/-- Closed witness for C3: on the example transcript with `n = 1` the cut
point is index 3 (the second user message), keeping the first three items. -/
theorem truncate_after_dropping_last_messages_correct_witness :
    truncate_after_dropping_last_messages exampleItems 1 = exampleItems.take 3 :=
  (truncate_after_dropping_last_messages_correct exampleItems 1).2.2.1 3
    (by decide) (by decide) (by decide)

/-- C8: re-truncating with `n = 0` is the identity, so truncation followed by
a second pass with `n = 0` equals the single truncation. -/
theorem truncate_idempotent_zero (items : List ResponseItem) (n : Nat) :
    truncate_after_dropping_last_messages (truncate_after_dropping_last_messages items n) 0 =
      truncate_after_dropping_last_messages items n := by
  simp [truncate_after_dropping_last_messages]

/-! ## Token usage accounting (`protocol.rs`, `TokenUsage`) -/

/-- Embedding of `TokenUsage` from `protocol.rs`. `u64` counters are modelled
as `Nat`. -/
structure TokenUsage where
  input_tokens : Nat
  cached_input_tokens : Option Nat
  output_tokens : Nat
  reasoning_output_tokens : Option Nat
  total_tokens : Nat
deriving DecidableEq, Repr

/-- Embedding of `TokenUsage::is_zero`. -/
def TokenUsage.is_zero (u : TokenUsage) : Bool :=
  u.total_tokens == 0

/-- Embedding of `TokenUsage::cached_input` (`unwrap_or(0)`). -/
def TokenUsage.cached_input (u : TokenUsage) : Nat :=
  u.cached_input_tokens.getD 0

/-- Embedding of `TokenUsage::non_cached_input`; Rust `saturating_sub` on `u64`
is truncated `Nat` subtraction. -/
def TokenUsage.non_cached_input (u : TokenUsage) : Nat :=
  u.input_tokens - u.cached_input

/-- Embedding of `TokenUsage::blended_total`. -/
def TokenUsage.blended_total (u : TokenUsage) : Nat :=
  u.non_cached_input + u.output_tokens

/-- Embedding of `TokenUsage::tokens_in_context_window` (`saturating_sub`). -/
def TokenUsage.tokens_in_context_window (u : TokenUsage) : Nat :=
  u.total_tokens - u.reasoning_output_tokens.getD 0

/-- Embedding of `TokenUsage::percent_of_context_window_remaining` from
`protocol.rs`. The `f32` arithmetic of the source is modelled by exact
rational arithmetic with the same `clamp(0, 100)`; the trailing `as u8` cast
of the clamped non-negative value is truncation, i.e. the floor. -/
def TokenUsage.percent_of_context_window_remaining
    (u : TokenUsage) (context_window baseline_used_tokens : Nat) : Nat :=
  if context_window ≤ baseline_used_tokens then 0
  else
    let effective_window := context_window - baseline_used_tokens
    let used := u.tokens_in_context_window - baseline_used_tokens
    let remaining := effective_window - used
    (⌊min (100 : ℚ) (max (0 : ℚ)
      ((remaining : ℚ) / (effective_window : ℚ) * 100))⌋).toNat

/-- C6: the remaining-context percentage always lies in `[0, 100]`, and is `0`
whenever the context window does not exceed the baseline. -/
theorem percent_of_context_window_remaining_bounds
    (u : TokenUsage) (context_window baseline_used_tokens : Nat) :
    u.percent_of_context_window_remaining context_window baseline_used_tokens ≤ 100 ∧
      (context_window ≤ baseline_used_tokens →
        u.percent_of_context_window_remaining context_window baseline_used_tokens = 0) := by
  constructor
  · rw [TokenUsage.percent_of_context_window_remaining]
    by_cases hcb : context_window ≤ baseline_used_tokens
    · simp [hcb]
    · simp only [hcb, if_false]
      have hmin : (min (100 : ℚ) (max (0 : ℚ)
          (((context_window - baseline_used_tokens -
              (u.tokens_in_context_window - baseline_used_tokens) : Nat) : ℚ) /
            ((context_window - baseline_used_tokens : Nat) : ℚ) * 100))) ≤ (100 : ℚ) :=
        min_le_left _ _
      have hfloor := Int.floor_le_floor hmin
      have h100 : ⌊(100 : ℚ)⌋ = 100 := by norm_num
      rw [h100] at hfloor
      omega
  · intro h
    simp [TokenUsage.percent_of_context_window_remaining, h]

/-- Closed witness for C6 at a concrete usage and window. -/
theorem percent_of_context_window_remaining_bounds_witness :
    TokenUsage.percent_of_context_window_remaining ⟨100, some 20, 50, some 10, 160⟩ 5 7 = 0 :=
  (percent_of_context_window_remaining_bounds ⟨100, some 20, 50, some 10, 160⟩ 5 7).2
    (by decide)

/-- C9: the derived token counters never underflow: `non_cached_input` and
`tokens_in_context_window` are the saturating differences (zero whenever the
subtrahend exceeds the minuend), and `blended_total` is `non_cached_input`
plus `output_tokens`. -/
theorem token_usage_saturating (u : TokenUsage) :
    ((u.non_cached_input : ℤ) = max 0 ((u.input_tokens : ℤ) - (u.cached_input : ℤ))) ∧
      ((u.tokens_in_context_window : ℤ) =
        max 0 ((u.total_tokens : ℤ) - (u.reasoning_output_tokens.getD 0 : ℤ))) ∧
      u.blended_total = u.non_cached_input + u.output_tokens := by
  refine ⟨?_, ?_, rfl⟩
  · rw [TokenUsage.non_cached_input]
    omega
  · rw [TokenUsage.tokens_in_context_window]
    omega

/-! ## Dotenv filtering (`arg0/src/lib.rs`) -/

/-- An environment-variable name or value, as its character list (Rust
`String`). -/
abbrev EnvStr := List Char

/-- Embedding of `ILLEGAL_ENV_VAR_PREFIX` (`"CODEX_"`) from
`arg0/src/lib.rs`. -/
def ILLEGAL_ENV_VAR_START : EnvStr := ['C', 'O', 'D', 'E', 'X', '_']

/-- The process environment, as a map from variable names to values. -/
def Env := EnvStr → Option EnvStr

/-- Embedding of `std::env::set_var`. -/
def setVar (env : Env) (key value : EnvStr) : Env :=
  fun k => if k = key then some value else env k

/-- Embedding of `str::to_ascii_uppercase`: Lean's `Char.toUpper` uppercases
exactly the ASCII lowercase range, as Rust's `to_ascii_uppercase` does. -/
def toAsciiUppercase (s : EnvStr) : EnvStr := s.map Char.toUpper

/-- Embedding of `set_filtered` from `arg0/src/lib.rs`: iterate the dotenv
items, skip `Err` entries (the `flatten()`), and set each variable unless its
ASCII-uppercased name starts with `CODEX_`. -/
def set_filtered (env : Env) (iter : List (Except Unit (EnvStr × EnvStr))) : Env :=
  iter.foldl (fun e item =>
    match item with
    | .ok (key, value) =>
      if ¬ (List.isPrefixOf ILLEGAL_ENV_VAR_START (toAsciiUppercase key) = true) then
        setVar e key value
      else e
    | .error _ => e) env

/-- Embedding of `load_dotenv` from `arg0/src/lib.rs`: apply `set_filtered` to
the `~/.codex/.env` items (when the codex home is found and the file parses)
and then to the `$(pwd)/.env` items (when present). -/
def load_dotenv (env : Env)
    (codexHomeIter cwdIter : Option (List (Except Unit (EnvStr × EnvStr)))) : Env :=
  let env1 := match codexHomeIter with
    | some iter => set_filtered env iter
    | none => env
  match cwdIter with
  | some iter => set_filtered env1 iter
  | none => env1

theorem illegal_start_toUpper (key : EnvStr)
    (h : List.isPrefixOf ILLEGAL_ENV_VAR_START key = true) :
    List.isPrefixOf ILLEGAL_ENV_VAR_START (toAsciiUppercase key) = true := by
  rcases List.isPrefixOf_iff_prefix.mp h with ⟨t, ht⟩
  apply List.isPrefixOf_iff_prefix.mpr
  rw [← ht, toAsciiUppercase, List.map_append]
  have hfix : List.map Char.toUpper ILLEGAL_ENV_VAR_START = ILLEGAL_ENV_VAR_START := by decide
  rw [hfix]
  exact ⟨_, rfl⟩

/-- C7: neither `set_filtered` nor `load_dotenv` ever changes the value of an
environment variable whose name starts with `CODEX_`. -/
theorem codex_vars_never_overwritten :
    (∀ (env : Env) (iter : List (Except Unit (EnvStr × EnvStr))) (key : EnvStr),
      List.isPrefixOf ILLEGAL_ENV_VAR_START key = true →
      set_filtered env iter key = env key) ∧
    (∀ (env : Env) (codexHomeIter cwdIter : Option (List (Except Unit (EnvStr × EnvStr))))
      (key : EnvStr),
      List.isPrefixOf ILLEGAL_ENV_VAR_START key = true →
      load_dotenv env codexHomeIter cwdIter key = env key) := by
  have hmain : ∀ (iter : List (Except Unit (EnvStr × EnvStr))) (env : Env) (key : EnvStr),
      List.isPrefixOf ILLEGAL_ENV_VAR_START key = true →
      set_filtered env iter key = env key := by
    intro iter
    induction iter with
    | nil =>
      intro env key _
      rfl
    | cons item rest ih =>
      intro env key h
      rw [set_filtered, List.foldl_cons, ← set_filtered, ih _ key h]
      rcases item with u | ⟨k, v⟩
      · rfl
      · simp only []
        by_cases hguard : List.isPrefixOf ILLEGAL_ENV_VAR_START (toAsciiUppercase k) = true
        · rw [if_neg (by simp [hguard])]
        · rw [if_pos (by simp [hguard]), setVar]
          have hne : ¬ key = k := by
            intro hkk
            subst hkk
            exact hguard (illegal_start_toUpper key h)
          rw [if_neg hne]
  refine ⟨fun env iter key h => hmain iter env key h, ?_⟩
  intro env codexHomeIter cwdIter key h
  unfold load_dotenv
  rcases codexHomeIter with _ | ⟨iter1⟩ <;> rcases cwdIter with _ | ⟨iter2⟩
  · rfl
  · exact hmain iter2 env key h
  · exact hmain iter1 env key h
  · show set_filtered (set_filtered env iter1) iter2 key = env key
    rw [hmain iter2 _ key h]
    exact hmain iter1 env key h

/-- Closed witness for C7: a pre-existing `CODEX_HOME` variable survives a
dotenv load that tries to overwrite it (including with a lower-case key). -/
theorem codex_vars_never_overwritten_witness :
    set_filtered (fun k => if k = "CODEX_HOME".toList then some "h".toList else none)
        [.ok ("CODEX_HOME".toList, "evil".toList), .ok ("PATH".toList, "p".toList)]
        "CODEX_HOME".toList =
      (fun k => if k = "CODEX_HOME".toList then some "h".toList else none)
        "CODEX_HOME".toList ∧
      load_dotenv (fun k => if k = "CODEX_HOME".toList then some "h".toList else none)
        (some [.ok ("codex_home".toList, "evil".toList)]) none "CODEX_HOME".toList =
      (fun k => if k = "CODEX_HOME".toList then some "h".toList else none)
        "CODEX_HOME".toList :=
  ⟨codex_vars_never_overwritten.1 _ _ _ (by decide),
   codex_vars_never_overwritten.2 _ _ _ _ (by decide)⟩

/-! ## JSON wire format (`protocol.rs`, serde encoding)

A JSON value type and codec combinators mirroring the serde-derived encodings
of `Submission`/`Op` and `Event`/`EventMsg`: internally tagged enums carry a
`"type"` discriminator merged with the payload fields; `Option` fields either
serialize as `null` or are skipped when absent (`skip_serializing_if`);
missing fields with `#[serde(default)]` fall back to the default; byte buffers
serialize as arrays of numbers; durations as `{secs, nanos}` objects. Decoders
are lenient about unknown fields and field order, as serde is. -/

/-- A JSON value. Numbers are modelled as integers: every number the protocol
serializes is an integer (`u64`, `u32`, `i32`, `usize`). -/
inductive JVal where
  | null
  | bool (b : Bool)
  | num (n : Int)
  | str (s : String)
  | arr (elems : List JVal)
  | obj (fields : List (String × JVal))

/-- Look a key up in a JSON object's field list (first match wins). -/
def lookupField : List (String × JVal) → String → Option JVal
  | [], _ => none
  | (k, v) :: rest, key => if k == key then some v else lookupField rest key

/-- Field access on a JSON value: a lookup when it is an object. -/
def JVal.getField : JVal → String → Option JVal
  | .obj fs, key => lookupField fs key
  | _, _ => none

/-- Whether a JSON value is `null`. -/
def JVal.isNull : JVal → Bool
  | .null => true
  | _ => false

/-- First-some combination of two lookups, for splitting a lookup across an
appended field list. -/
def orFld : Option JVal → Option JVal → Option JVal
  | some v, _ => some v
  | none, b => b

@[simp] theorem orFld_some (v : JVal) (b : Option JVal) : orFld (some v) b = some v := rfl

@[simp] theorem orFld_none (b : Option JVal) : orFld none b = b := rfl

@[simp] theorem orFld_none_right (a : Option JVal) : orFld a none = a := by
  cases a <;> rfl

@[simp] theorem lookupField_nil (key : String) : lookupField [] key = none := rfl

@[simp] theorem lookupField_cons (k : String) (v : JVal) (rest : List (String × JVal))
    (key : String) :
    lookupField ((k, v) :: rest) key = if k == key then some v else lookupField rest key := rfl

@[simp] theorem lookupField_append (l1 l2 : List (String × JVal)) (key : String) :
    lookupField (l1 ++ l2) key = orFld (lookupField l1 key) (lookupField l2 key) := by
  induction l1 with
  | nil => simp
  | cons kv rest ih =>
    rcases kv with ⟨k, v⟩
    by_cases hk : (k == key) = true <;> simp [hk, ih]

/-- Encoders/decoders for the leaf types of the protocol. -/
def encStr (s : String) : JVal := .str s

def decStr : JVal → Option String
  | .str s => some s
  | _ => none

/-- `u64`/`u32`/`usize` values encode as (non-negative) JSON numbers. -/
def encNat (n : Nat) : JVal := .num (n : Int)

def decNat : JVal → Option Nat
  | .num (Int.ofNat n) => some n
  | _ => none

/-- `i32` values (exit codes). -/
def encInt (i : Int) : JVal := .num i

def decInt : JVal → Option Int
  | .num i => some i
  | _ => none

def encBool (b : Bool) : JVal := .bool b

def decBool : JVal → Option Bool
  | .bool b => some b
  | _ => none

@[simp] theorem decStr_encStr (s : String) : decStr (encStr s) = some s := rfl

@[simp] theorem decStr_str (s : String) : decStr (JVal.str s) = some s := rfl

@[simp] theorem decNat_encNat (n : Nat) : decNat (encNat n) = some n := rfl

@[simp] theorem decInt_encInt (i : Int) : decInt (encInt i) = some i := rfl

@[simp] theorem decBool_encBool (b : Bool) : decBool (encBool b) = some b := rfl

/-- `Vec<T>` encodes as a JSON array. -/
def encList (f : α → JVal) (l : List α) : JVal := .arr (l.map f)

/-- Decode every element of a JSON array, failing if any element fails. -/
def mapDec (f : JVal → Option α) : List JVal → Option (List α)
  | [] => some []
  | x :: xs => (f x).bind (fun a => (mapDec f xs).map (fun as => a :: as))

def decList (f : JVal → Option α) : JVal → Option (List α)
  | .arr xs => mapDec f xs
  | _ => none

theorem decList_encList (f : α → JVal) (g : JVal → Option α)
    (h : ∀ a, g (f a) = some a) (l : List α) : decList g (encList f l) = some l := by
  rw [encList, decList]
  induction l with
  | nil => rfl
  | cons a as ih => simp [mapDec, h, ih]

/-- `HashMap<String-like, T>` encodes as a JSON object (modelled as the
association list of its entries). -/
def encAssoc (f : α → JVal) (m : List (String × α)) : JVal :=
  .obj (m.map fun kv => (kv.1, f kv.2))

/-- Decode every entry of a JSON object's field list, keeping the keys. -/
def mapDecPairs (f : JVal → Option α) : List (String × JVal) → Option (List (String × α))
  | [] => some []
  | kv :: rest =>
    (f kv.2).bind (fun v => (mapDecPairs f rest).map (fun vs => (kv.1, v) :: vs))

def decAssoc (f : JVal → Option α) : JVal → Option (List (String × α))
  | .obj fs => mapDecPairs f fs
  | _ => none

theorem decAssoc_encAssoc (f : α → JVal) (g : JVal → Option α)
    (h : ∀ a, g (f a) = some a) (m : List (String × α)) :
    decAssoc g (encAssoc f m) = some m := by
  rw [encAssoc, decAssoc]
  induction m with
  | nil => rfl
  | cons kv rest ih => simp [mapDecPairs, h, ih]

/-- Fields marked `#[serde(skip_serializing_if = "Option::is_none")]`: absent
when `none`. -/
def encOptSkip (f : α → JVal) (name : String) : Option α → List (String × JVal)
  | none => []
  | some a => [(name, f a)]

/-- Plain `Option` fields: `null` when `none`. -/
def encOptNull (f : α → JVal) : Option α → JVal
  | none => .null
  | some a => f a

/-- serde's decoding of an `Option<T>` field from a lookup result: a missing
field and an explicit `null` both give `None`. -/
def decOptField (f : JVal → Option α) : Option JVal → Option (Option α)
  | none => some none
  | some .null => some none
  | some v => (f v).map some

@[simp] theorem decOptField_none (f : JVal → Option α) : decOptField f none = some none := rfl

@[simp] theorem lookupField_encOptSkip_self (f : α → JVal) (name : String) (o : Option α) :
    lookupField (encOptSkip f name o) name = o.map f := by
  cases o <;> simp [encOptSkip]

@[simp] theorem lookupField_encOptSkip_ne (f : α → JVal) (n1 : String) (o : Option α)
    (n2 : String) (h : (n1 == n2) = false) : lookupField (encOptSkip f n1 o) n2 = none := by
  cases o <;> simp [encOptSkip, h]

@[simp] theorem decOptField_map_encStr (o : Option String) :
    decOptField decStr (Option.map encStr o) = some o := by
  cases o <;> rfl

@[simp] theorem decOptField_map_encNat (o : Option Nat) :
    decOptField decNat (Option.map encNat o) = some o := by
  cases o <;> simp [decOptField, encNat, decNat]

@[simp] theorem decOptField_some_encOptNull_str (o : Option String) :
    decOptField decStr (some (encOptNull encStr o)) = some o := by
  cases o <;> rfl

@[simp] theorem decOptField_some_encOptNull_nat (o : Option Nat) :
    decOptField decNat (some (encOptNull encNat o)) = some o := by
  cases o <;> simp [decOptField, encOptNull, encNat, decNat]

namespace Wire

/-- Embedding of `std::time::Duration` as serde serializes it: an object with
`secs` and `nanos`. -/
structure Duration where
  secs : Nat
  nanos : Nat

def encDuration (d : Duration) : JVal :=
  .obj [("secs", encNat d.secs), ("nanos", encNat d.nanos)]

def decDuration (j : JVal) : Option Duration := do
  let secs ← (j.getField "secs").bind decNat
  let nanos ← (j.getField "nanos").bind decNat
  pure ⟨secs, nanos⟩

@[simp] theorem decDuration_encDuration (d : Duration) :
    decDuration (encDuration d) = some d := by
  simp [decDuration, encDuration, JVal.getField]

/-- Embedding of `McpInvocation` from `protocol.rs`. `arguments` is an
`Option<serde_json::Value>`, i.e. an optional raw JSON value. -/
structure McpInvocation where
  server : String
  tool : String
  arguments : Option JVal

/-- Modelled from the spec: `mcp_types::CallToolResult` (outside the sources)
is serialized by its own serde implementation; it is modelled as an opaque
JSON document, which round-trips by construction. -/
structure CallToolResult where
  json : JVal

/-- Modelled from the spec: `mcp_types::Tool` (outside the sources), as an
opaque JSON document. -/
structure McpTool where
  json : JVal

/-- Modelled from the spec: `custom_prompts::CustomPrompt` (outside the
sources), as an opaque JSON document. -/
structure CustomPrompt where
  json : JVal

/-- Modelled from the spec: `parse_command::ParsedCommand` (outside the
sources), as an opaque JSON document. -/
structure ParsedCommand where
  json : JVal

/-- Modelled from the spec: the wire form of a transcript
`codex_protocol::models::ResponseItem` (outside the sources), as an opaque
JSON document. -/
structure ResponseItem where
  json : JVal

/-- Modelled from the spec: a `message_history::HistoryEntry` (outside the
sources) is the stored message text. -/
structure HistoryEntry where
  text : String

def encHistoryEntry (e : HistoryEntry) : JVal := .obj [("text", encStr e.text)]

def decHistoryEntry (j : JVal) : Option HistoryEntry := do
  let text ← (j.getField "text").bind decStr
  pure ⟨text⟩

@[simp] theorem decHistoryEntry_encHistoryEntry (e : HistoryEntry) :
    decHistoryEntry (encHistoryEntry e) = some e := by
  simp [decHistoryEntry, encHistoryEntry, JVal.getField]

/-- Modelled from the spec: the status of one plan step in the `plan_update`
payload (`plan_tool::UpdatePlanArgs` is outside the sources). -/
inductive StepStatus where
  | Pending
  | InProgress
  | Completed

def encStepStatus : StepStatus → JVal
  | .Pending => .str "pending"
  | .InProgress => .str "in_progress"
  | .Completed => .str "completed"

def decStepStatus : JVal → Option StepStatus
  | .str "pending" => some .Pending
  | .str "in_progress" => some .InProgress
  | .str "completed" => some .Completed
  | _ => none

@[simp] theorem decStepStatus_encStepStatus (s : StepStatus) :
    decStepStatus (encStepStatus s) = some s := by
  cases s <;> rfl

/-- Modelled from the spec: one step of the `plan_update` payload. -/
structure PlanItemArg where
  step : String
  status : StepStatus

def encPlanItemArg (p : PlanItemArg) : JVal :=
  .obj [("step", encStr p.step), ("status", encStepStatus p.status)]

def decPlanItemArg (j : JVal) : Option PlanItemArg := do
  let step ← (j.getField "step").bind decStr
  let status ← (j.getField "status").bind decStepStatus
  pure ⟨step, status⟩

@[simp] theorem decPlanItemArg_encPlanItemArg (p : PlanItemArg) :
    decPlanItemArg (encPlanItemArg p) = some p := by
  simp [decPlanItemArg, encPlanItemArg, JVal.getField]

/-- Modelled from the spec: the payload of `plan_update`
(`plan_tool::UpdatePlanArgs` is outside the sources): an optional explanation
and the list of plan steps. -/
structure UpdatePlanArgs where
  explanation : Option String
  plan : List PlanItemArg

/-- Embedding of `ExecOutputStream` from `protocol.rs`. -/
inductive ExecOutputStream where
  | Stdout
  | Stderr

def encExecOutputStream : ExecOutputStream → JVal
  | .Stdout => .str "stdout"
  | .Stderr => .str "stderr"

def decExecOutputStream : JVal → Option ExecOutputStream
  | .str "stdout" => some .Stdout
  | .str "stderr" => some .Stderr
  | _ => none

@[simp] theorem decExecOutputStream_encExecOutputStream (s : ExecOutputStream) :
    decExecOutputStream (encExecOutputStream s) = some s := by
  cases s <;> rfl

/-- Embedding of `FileChange` from `protocol.rs` (externally tagged,
snake-case; the unit variant `Delete` serializes as the bare string
`"delete"`). `PathBuf` is a string on the wire. -/
inductive FileChange where
  | Add (content : String)
  | Delete
  | Update (unified_diff : String) (move_path : Option String)

def encFileChange : FileChange → JVal
  | .Add content => .obj [("add", .obj [("content", encStr content)])]
  | .Delete => .str "delete"
  | .Update unified_diff move_path =>
    .obj [("update", .obj [("unified_diff", encStr unified_diff),
                           ("move_path", encOptNull encStr move_path)])]

def decFileChange (j : JVal) : Option FileChange :=
  match j with
  | .str "delete" => some .Delete
  | .obj fs =>
    match lookupField fs "add" with
    | some inner => do
      let content ← (inner.getField "content").bind decStr
      pure (.Add content)
    | none =>
      match lookupField fs "update" with
      | some inner => do
        let unified_diff ← (inner.getField "unified_diff").bind decStr
        let move_path ← decOptField decStr (inner.getField "move_path")
        pure (.Update unified_diff move_path)
      | none => none
  | _ => none

@[simp] theorem decFileChange_encFileChange (c : FileChange) :
    decFileChange (encFileChange c) = some c := by
  cases c with
  | Add content => simp [decFileChange, encFileChange, JVal.getField]
  | Delete => rfl
  | Update unified_diff move_path =>
    simp [decFileChange, encFileChange, JVal.getField]

/-- Embedding of `ReviewDecision` from `protocol.rs`. -/
inductive ReviewDecision where
  | Approved
  | ApprovedForSession
  | Denied
  | Abort

def encReviewDecision : ReviewDecision → JVal
  | .Approved => .str "approved"
  | .ApprovedForSession => .str "approved_for_session"
  | .Denied => .str "denied"
  | .Abort => .str "abort"

def decReviewDecision : JVal → Option ReviewDecision
  | .str "approved" => some .Approved
  | .str "approved_for_session" => some .ApprovedForSession
  | .str "denied" => some .Denied
  | .str "abort" => some .Abort
  | _ => none

@[simp] theorem decReviewDecision_encReviewDecision (d : ReviewDecision) :
    decReviewDecision (encReviewDecision d) = some d := by
  cases d <;> rfl

/-- Embedding of `TurnAbortReason` from `protocol.rs`. -/
inductive TurnAbortReason where
  | Interrupted
  | Replaced

def encTurnAbortReason : TurnAbortReason → JVal
  | .Interrupted => .str "interrupted"
  | .Replaced => .str "replaced"

def decTurnAbortReason : JVal → Option TurnAbortReason
  | .str "interrupted" => some .Interrupted
  | .str "replaced" => some .Replaced
  | _ => none

@[simp] theorem decTurnAbortReason_encTurnAbortReason (r : TurnAbortReason) :
    decTurnAbortReason (encTurnAbortReason r) = some r := by
  cases r <;> rfl

/-- Embedding of `AskForApproval` from `protocol.rs` (kebab-case wire values;
`UnlessTrusted` renames to `"untrusted"`). -/
inductive AskForApproval where
  | UnlessTrusted
  | OnFailure
  | OnRequest
  | Never

def encAskForApproval : AskForApproval → JVal
  | .UnlessTrusted => .str "untrusted"
  | .OnFailure => .str "on-failure"
  | .OnRequest => .str "on-request"
  | .Never => .str "never"

def decAskForApproval : JVal → Option AskForApproval
  | .str "untrusted" => some .UnlessTrusted
  | .str "on-failure" => some .OnFailure
  | .str "on-request" => some .OnRequest
  | .str "never" => some .Never
  | _ => none

@[simp] theorem decAskForApproval_encAskForApproval (a : AskForApproval) :
    decAskForApproval (encAskForApproval a) = some a := by
  cases a <;> rfl

/-- Embedding of `InputItem` from `protocol.rs` (internally tagged by
`type`). -/
inductive InputItem where
  | Text (text : String)
  | Image (image_url : String)
  | LocalImage (path : String)

def encInputItem : InputItem → JVal
  | .Text text => .obj [("type", .str "text"), ("text", encStr text)]
  | .Image image_url => .obj [("type", .str "image"), ("image_url", encStr image_url)]
  | .LocalImage path => .obj [("type", .str "local_image"), ("path", encStr path)]

def decInputItem (j : JVal) : Option InputItem := do
  let tag ← (j.getField "type").bind decStr
  match tag with
  | "text" => do
    let text ← (j.getField "text").bind decStr
    pure (.Text text)
  | "image" => do
    let image_url ← (j.getField "image_url").bind decStr
    pure (.Image image_url)
  | "local_image" => do
    let path ← (j.getField "path").bind decStr
    pure (.LocalImage path)
  | _ => none

@[simp] theorem decInputItem_encInputItem (it : InputItem) :
    decInputItem (encInputItem it) = some it := by
  cases it <;> simp [decInputItem, encInputItem, JVal.getField]

/-- Modelled from the spec: the reasoning-effort configuration
(`config_types::ReasoningEffort`, outside the sources), a lowercase-encoded
enum. -/
inductive ReasoningEffortConfig where
  | Low
  | Medium
  | High

def encEffort : ReasoningEffortConfig → JVal
  | .Low => .str "low"
  | .Medium => .str "medium"
  | .High => .str "high"

def decEffort : JVal → Option ReasoningEffortConfig
  | .str "low" => some .Low
  | .str "medium" => some .Medium
  | .str "high" => some .High
  | _ => none

@[simp] theorem decEffort_encEffort (e : ReasoningEffortConfig) :
    decEffort (encEffort e) = some e := by
  cases e <;> rfl

/-- Modelled from the spec: the reasoning-summary configuration
(`config_types::ReasoningSummary`, outside the sources), a lowercase-encoded
enum. -/
inductive ReasoningSummaryConfig where
  | Auto
  | Concise
  | Detailed

def encSummary : ReasoningSummaryConfig → JVal
  | .Auto => .str "auto"
  | .Concise => .str "concise"
  | .Detailed => .str "detailed"

def decSummary : JVal → Option ReasoningSummaryConfig
  | .str "auto" => some .Auto
  | .str "concise" => some .Concise
  | .str "detailed" => some .Detailed
  | _ => none

@[simp] theorem decSummary_encSummary (s : ReasoningSummaryConfig) :
    decSummary (encSummary s) = some s := by
  cases s <;> rfl

theorem decOptField_some_of_notNull (f : JVal → Option α) (j : JVal)
    (h : j.isNull = false) : decOptField f (some j) = (f j).map some := by
  cases j <;> simp [JVal.isNull, decOptField] at h ⊢

def encMcpInvocation (i : McpInvocation) : JVal :=
  .obj [("server", encStr i.server), ("tool", encStr i.tool),
        ("arguments", encOptNull (fun j => j) i.arguments)]

def decMcpInvocation (j : JVal) : Option McpInvocation := do
  let server ← (j.getField "server").bind decStr
  let tool ← (j.getField "tool").bind decStr
  let arguments ← decOptField (fun v => some v) (j.getField "arguments")
  pure ⟨server, tool, arguments⟩

/-- Whether the raw JSON `arguments` value of an MCP invocation is not the
explicit JSON `null` (serde decodes a `null` for an `Option<Value>` field to
`None`, so `Some(Null)` cannot survive a round-trip). -/
def McpInvocation.argumentsOk (i : McpInvocation) : Bool :=
  match i.arguments with
  | some .null => false
  | _ => true

theorem decMcpInvocation_encMcpInvocation (i : McpInvocation)
    (h : i.argumentsOk = true) : decMcpInvocation (encMcpInvocation i) = some i := by
  rcases i with ⟨server, tool, _ | v⟩
  · simp [encMcpInvocation, decMcpInvocation, JVal.getField, encOptNull, decOptField]
  · cases v <;>
      simp_all [McpInvocation.argumentsOk, encMcpInvocation, decMcpInvocation,
        JVal.getField, encOptNull, decOptField]

def encSandboxPolicy : SandboxPolicy String → JVal
  | .DangerFullAccess => .obj [("mode", .str "danger-full-access")]
  | .ReadOnly => .obj [("mode", .str "read-only")]
  | .WorkspaceWrite writable_roots network_access exclude_tmpdir_env_var exclude_slash_tmp =>
    .obj (("mode", .str "workspace-write")
      :: ((if writable_roots.isEmpty then []
           else [("writable_roots", encList encStr writable_roots)])
        ++ [("network_access", encBool network_access),
            ("exclude_tmpdir_env_var", encBool exclude_tmpdir_env_var),
            ("exclude_slash_tmp", encBool exclude_slash_tmp)]))

def decSandboxPolicy (j : JVal) : Option (SandboxPolicy String) := do
  let mode ← (j.getField "mode").bind decStr
  match mode with
  | "danger-full-access" => pure .DangerFullAccess
  | "read-only" => pure .ReadOnly
  | "workspace-write" => do
    let writable_roots ← match j.getField "writable_roots" with
      | none => pure []
      | some v => decList decStr v
    let network_access ← match j.getField "network_access" with
      | none => pure false
      | some v => decBool v
    let exclude_tmpdir_env_var ← match j.getField "exclude_tmpdir_env_var" with
      | none => pure false
      | some v => decBool v
    let exclude_slash_tmp ← match j.getField "exclude_slash_tmp" with
      | none => pure false
      | some v => decBool v
    pure (.WorkspaceWrite writable_roots network_access exclude_tmpdir_env_var exclude_slash_tmp)
  | _ => none

theorem decSandboxPolicy_encSandboxPolicy (p : SandboxPolicy String) :
    decSandboxPolicy (encSandboxPolicy p) = some p := by
  cases p with
  | DangerFullAccess => rfl
  | ReadOnly => rfl
  | WorkspaceWrite writable_roots network_access exclude_tmpdir_env_var exclude_slash_tmp =>
    cases writable_roots with
    | nil => simp [encSandboxPolicy, decSandboxPolicy, JVal.getField]
    | cons r rs =>
      simp [encSandboxPolicy, decSandboxPolicy, JVal.getField,
        decList_encList encStr decStr (fun a => rfl)]

@[simp] theorem decOptField_map_encAskForApproval (o : Option AskForApproval) :
    decOptField decAskForApproval (Option.map encAskForApproval o) = some o := by
  rcases o with _ | a
  · rfl
  · show decOptField decAskForApproval (some (encAskForApproval a)) = some (some a)
    rw [decOptField_some_of_notNull _ _ (by cases a <;> rfl),
      decAskForApproval_encAskForApproval]
    rfl

@[simp] theorem decOptField_map_encSandboxPolicy (o : Option (SandboxPolicy String)) :
    decOptField decSandboxPolicy (Option.map encSandboxPolicy o) = some o := by
  rcases o with _ | p
  · rfl
  · show decOptField decSandboxPolicy (some (encSandboxPolicy p)) = some (some p)
    rw [decOptField_some_of_notNull _ _ (by cases p <;> rfl),
      decSandboxPolicy_encSandboxPolicy]
    rfl

@[simp] theorem decOptField_map_encEffort (o : Option ReasoningEffortConfig) :
    decOptField decEffort (Option.map encEffort o) = some o := by
  rcases o with _ | e
  · rfl
  · show decOptField decEffort (some (encEffort e)) = some (some e)
    rw [decOptField_some_of_notNull _ _ (by cases e <;> rfl), decEffort_encEffort]
    rfl

@[simp] theorem decOptField_map_encSummary (o : Option ReasoningSummaryConfig) :
    decOptField decSummary (Option.map encSummary o) = some o := by
  rcases o with _ | s
  · rfl
  · show decOptField decSummary (some (encSummary s)) = some (some s)
    rw [decOptField_some_of_notNull _ _ (by cases s <;> rfl), decSummary_encSummary]
    rfl

/-- Embedding of `Op` from `protocol.rs` (internally tagged by `type`,
snake-case). `PathBuf` fields are strings on the wire. -/
inductive Op where
  | Interrupt
  | UserInput (items : List InputItem)
  | UserTurn (items : List InputItem) (cwd : String) (approval_policy : AskForApproval)
      (sandbox_policy : SandboxPolicy String) (model : String)
      (effort : ReasoningEffortConfig) (summary : ReasoningSummaryConfig)
  | OverrideTurnContext (cwd : Option String) (approval_policy : Option AskForApproval)
      (sandbox_policy : Option (SandboxPolicy String)) (model : Option String)
      (effort : Option ReasoningEffortConfig) (summary : Option ReasoningSummaryConfig)
  | ExecApproval (id : String) (decision : ReviewDecision)
  | PatchApproval (id : String) (decision : ReviewDecision)
  | AddToHistory (text : String)
  | GetHistoryEntryRequest (offset : Nat) (log_id : Nat)
  | GetHistory
  | ListMcpTools
  | ListCustomPrompts
  | Compact
  | Shutdown

def encOp : Op → JVal
  | .Interrupt => .obj [("type", .str "interrupt")]
  | .UserInput items =>
    .obj [("type", .str "user_input"), ("items", encList encInputItem items)]
  | .UserTurn items cwd approval_policy sandbox_policy model effort summary =>
    .obj [("type", .str "user_turn"), ("items", encList encInputItem items),
          ("cwd", encStr cwd), ("approval_policy", encAskForApproval approval_policy),
          ("sandbox_policy", encSandboxPolicy sandbox_policy), ("model", encStr model),
          ("effort", encEffort effort), ("summary", encSummary summary)]
  | .OverrideTurnContext cwd approval_policy sandbox_policy model effort summary =>
    .obj (("type", .str "override_turn_context")
      :: (encOptSkip encStr "cwd" cwd
        ++ encOptSkip encAskForApproval "approval_policy" approval_policy
        ++ encOptSkip encSandboxPolicy "sandbox_policy" sandbox_policy
        ++ encOptSkip encStr "model" model
        ++ encOptSkip encEffort "effort" effort
        ++ encOptSkip encSummary "summary" summary))
  | .ExecApproval id decision =>
    .obj [("type", .str "exec_approval"), ("id", encStr id),
          ("decision", encReviewDecision decision)]
  | .PatchApproval id decision =>
    .obj [("type", .str "patch_approval"), ("id", encStr id),
          ("decision", encReviewDecision decision)]
  | .AddToHistory text => .obj [("type", .str "add_to_history"), ("text", encStr text)]
  | .GetHistoryEntryRequest offset log_id =>
    .obj [("type", .str "get_history_entry_request"), ("offset", encNat offset),
          ("log_id", encNat log_id)]
  | .GetHistory => .obj [("type", .str "get_history")]
  | .ListMcpTools => .obj [("type", .str "list_mcp_tools")]
  | .ListCustomPrompts => .obj [("type", .str "list_custom_prompts")]
  | .Compact => .obj [("type", .str "compact")]
  | .Shutdown => .obj [("type", .str "shutdown")]

def decOp (j : JVal) : Option Op := do
  let tag ← (j.getField "type").bind decStr
  match tag with
  | "interrupt" => pure .Interrupt
  | "user_input" => do
    let items ← (j.getField "items").bind (decList decInputItem)
    pure (.UserInput items)
  | "user_turn" => do
    let items ← (j.getField "items").bind (decList decInputItem)
    let cwd ← (j.getField "cwd").bind decStr
    let approval_policy ← (j.getField "approval_policy").bind decAskForApproval
    let sandbox_policy ← (j.getField "sandbox_policy").bind decSandboxPolicy
    let model ← (j.getField "model").bind decStr
    let effort ← (j.getField "effort").bind decEffort
    let summary ← (j.getField "summary").bind decSummary
    pure (.UserTurn items cwd approval_policy sandbox_policy model effort summary)
  | "override_turn_context" => do
    let cwd ← decOptField decStr (j.getField "cwd")
    let approval_policy ← decOptField decAskForApproval (j.getField "approval_policy")
    let sandbox_policy ← decOptField decSandboxPolicy (j.getField "sandbox_policy")
    let model ← decOptField decStr (j.getField "model")
    let effort ← decOptField decEffort (j.getField "effort")
    let summary ← decOptField decSummary (j.getField "summary")
    pure (.OverrideTurnContext cwd approval_policy sandbox_policy model effort summary)
  | "exec_approval" => do
    let id ← (j.getField "id").bind decStr
    let decision ← (j.getField "decision").bind decReviewDecision
    pure (.ExecApproval id decision)
  | "patch_approval" => do
    let id ← (j.getField "id").bind decStr
    let decision ← (j.getField "decision").bind decReviewDecision
    pure (.PatchApproval id decision)
  | "add_to_history" => do
    let text ← (j.getField "text").bind decStr
    pure (.AddToHistory text)
  | "get_history_entry_request" => do
    let offset ← (j.getField "offset").bind decNat
    let log_id ← (j.getField "log_id").bind decNat
    pure (.GetHistoryEntryRequest offset log_id)
  | "get_history" => pure .GetHistory
  | "list_mcp_tools" => pure .ListMcpTools
  | "list_custom_prompts" => pure .ListCustomPrompts
  | "compact" => pure .Compact
  | "shutdown" => pure .Shutdown
  | _ => none

theorem decOp_encOp (o : Op) : decOp (encOp o) = some o := by
  cases o <;>
    simp [decOp, encOp, JVal.getField,
      decList_encList encInputItem decInputItem decInputItem_encInputItem,
      decSandboxPolicy_encSandboxPolicy]

/-- Embedding of `Submission` from `protocol.rs`. -/
structure Submission where
  id : String
  op : Op

def encSubmission (s : Submission) : JVal :=
  .obj [("id", encStr s.id), ("op", encOp s.op)]

def decSubmission (j : JVal) : Option Submission := do
  let id ← (j.getField "id").bind decStr
  let op ← (j.getField "op").bind decOp
  pure ⟨id, op⟩

theorem decSubmission_encSubmission (s : Submission) :
    decSubmission (encSubmission s) = some s := by
  simp [decSubmission, encSubmission, JVal.getField, decOp_encOp]

/-! ### Event payloads (`protocol.rs`) -/

structure ErrorEvent where
  message : String

structure TaskCompleteEvent where
  last_agent_message : Option String

structure TaskStartedEvent where
  model_context_window : Option Nat

structure AgentMessageEvent where
  message : String

structure AgentMessageDeltaEvent where
  delta : String

structure AgentReasoningEvent where
  text : String

structure AgentReasoningDeltaEvent where
  delta : String

structure AgentReasoningRawContentEvent where
  text : String

structure AgentReasoningRawContentDeltaEvent where
  delta : String

structure AgentReasoningSectionBreakEvent where

structure SessionConfiguredEvent where
  session_id : String
  model : String
  history_log_id : Nat
  history_entry_count : Nat

structure McpToolCallBeginEvent where
  call_id : String
  invocation : McpInvocation

structure McpToolCallEndEvent where
  call_id : String
  invocation : McpInvocation
  duration : Duration
  result : Except String CallToolResult

structure WebSearchBeginEvent where
  call_id : String

structure WebSearchEndEvent where
  call_id : String
  query : String

structure ExecCommandBeginEvent where
  call_id : String
  command : List String
  cwd : String
  parsed_cmd : List ParsedCommand

structure ExecCommandOutputDeltaEvent where
  call_id : String
  stream : ExecOutputStream
  chunk : List Nat

structure ExecCommandEndEvent where
  call_id : String
  stdout : String
  stderr : String
  aggregated_output : String
  exit_code : Int
  duration : Duration
  formatted_output : String

structure ExecApprovalRequestEvent where
  call_id : String
  command : List String
  cwd : String
  reason : Option String

structure ApplyPatchApprovalRequestEvent where
  call_id : String
  changes : List (String × FileChange)
  reason : Option String
  grant_root : Option String

structure BackgroundEventEvent where
  message : String

structure StreamErrorEvent where
  message : String

structure PatchApplyBeginEvent where
  call_id : String
  auto_approved : Bool
  changes : List (String × FileChange)

structure PatchApplyEndEvent where
  call_id : String
  stdout : String
  stderr : String
  success : Bool

structure TurnDiffEvent where
  unified_diff : String

structure GetHistoryEntryResponseEvent where
  offset : Nat
  log_id : Nat
  entry : Option HistoryEntry

structure McpListToolsResponseEvent where
  tools : List (String × McpTool)

structure ListCustomPromptsResponseEvent where
  custom_prompts : List CustomPrompt

structure TurnAbortedEvent where
  reason : TurnAbortReason

structure ConversationHistoryResponseEvent where
  conversation_id : String
  entries : List ResponseItem

/-- Embedding of `EventMsg` from `protocol.rs` (internally tagged by `type`,
snake-case). -/
inductive EventMsg where
  | Error (e : ErrorEvent)
  | TaskStarted (e : TaskStartedEvent)
  | TaskComplete (e : TaskCompleteEvent)
  | TokenCount (u : TokenUsage)
  | AgentMessage (e : AgentMessageEvent)
  | AgentMessageDelta (e : AgentMessageDeltaEvent)
  | AgentReasoning (e : AgentReasoningEvent)
  | AgentReasoningDelta (e : AgentReasoningDeltaEvent)
  | AgentReasoningRawContent (e : AgentReasoningRawContentEvent)
  | AgentReasoningRawContentDelta (e : AgentReasoningRawContentDeltaEvent)
  | AgentReasoningSectionBreak (e : AgentReasoningSectionBreakEvent)
  | SessionConfigured (e : SessionConfiguredEvent)
  | McpToolCallBegin (e : McpToolCallBeginEvent)
  | McpToolCallEnd (e : McpToolCallEndEvent)
  | WebSearchBegin (e : WebSearchBeginEvent)
  | WebSearchEnd (e : WebSearchEndEvent)
  | ExecCommandBegin (e : ExecCommandBeginEvent)
  | ExecCommandOutputDelta (e : ExecCommandOutputDeltaEvent)
  | ExecCommandEnd (e : ExecCommandEndEvent)
  | ExecApprovalRequest (e : ExecApprovalRequestEvent)
  | ApplyPatchApprovalRequest (e : ApplyPatchApprovalRequestEvent)
  | BackgroundEvent (e : BackgroundEventEvent)
  | StreamError (e : StreamErrorEvent)
  | PatchApplyBegin (e : PatchApplyBeginEvent)
  | PatchApplyEnd (e : PatchApplyEndEvent)
  | TurnDiff (e : TurnDiffEvent)
  | GetHistoryEntryResponse (e : GetHistoryEntryResponseEvent)
  | McpListToolsResponse (e : McpListToolsResponseEvent)
  | ListCustomPromptsResponse (e : ListCustomPromptsResponseEvent)
  | PlanUpdate (args : UpdatePlanArgs)
  | TurnAborted (e : TurnAbortedEvent)
  | ShutdownComplete
  | ConversationHistory (e : ConversationHistoryResponseEvent)

def encCallToolResult (r : CallToolResult) : JVal := r.json

def decCallToolResult (j : JVal) : Option CallToolResult := some ⟨j⟩

def encMcpTool (t : McpTool) : JVal := t.json

def decMcpTool (j : JVal) : Option McpTool := some ⟨j⟩

def encCustomPrompt (p : CustomPrompt) : JVal := p.json

def decCustomPrompt (j : JVal) : Option CustomPrompt := some ⟨j⟩

def encParsedCommand (p : ParsedCommand) : JVal := p.json

def decParsedCommand (j : JVal) : Option ParsedCommand := some ⟨j⟩

def encResponseItem (r : ResponseItem) : JVal := r.json

def decResponseItem (j : JVal) : Option ResponseItem := some ⟨j⟩

/-- serde's external representation of `Result<CallToolResult, String>`:
`{"Ok": ...}` or `{"Err": ...}`. -/
def encToolResult : Except String CallToolResult → JVal
  | .ok r => .obj [("Ok", encCallToolResult r)]
  | .error e => .obj [("Err", encStr e)]

def decToolResult (j : JVal) : Option (Except String CallToolResult) :=
  match j.getField "Ok" with
  | some v => (decCallToolResult v).map .ok
  | none =>
    match j.getField "Err" with
    | some v => (decStr v).map .error
    | none => none

@[simp] theorem decToolResult_encToolResult (r : Except String CallToolResult) :
    decToolResult (encToolResult r) = some r := by
  cases r <;> rfl

def encEventMsg : EventMsg → JVal
  | .Error e => .obj [("type", .str "error"), ("message", encStr e.message)]
  | .TaskStarted e =>
    .obj [("type", .str "task_started"),
          ("model_context_window", encOptNull encNat e.model_context_window)]
  | .TaskComplete e =>
    .obj [("type", .str "task_complete"),
          ("last_agent_message", encOptNull encStr e.last_agent_message)]
  | .TokenCount u =>
    .obj [("type", .str "token_count"), ("input_tokens", encNat u.input_tokens),
          ("cached_input_tokens", encOptNull encNat u.cached_input_tokens),
          ("output_tokens", encNat u.output_tokens),
          ("reasoning_output_tokens", encOptNull encNat u.reasoning_output_tokens),
          ("total_tokens", encNat u.total_tokens)]
  | .AgentMessage e => .obj [("type", .str "agent_message"), ("message", encStr e.message)]
  | .AgentMessageDelta e =>
    .obj [("type", .str "agent_message_delta"), ("delta", encStr e.delta)]
  | .AgentReasoning e => .obj [("type", .str "agent_reasoning"), ("text", encStr e.text)]
  | .AgentReasoningDelta e =>
    .obj [("type", .str "agent_reasoning_delta"), ("delta", encStr e.delta)]
  | .AgentReasoningRawContent e =>
    .obj [("type", .str "agent_reasoning_raw_content"), ("text", encStr e.text)]
  | .AgentReasoningRawContentDelta e =>
    .obj [("type", .str "agent_reasoning_raw_content_delta"), ("delta", encStr e.delta)]
  | .AgentReasoningSectionBreak _ =>
    .obj [("type", .str "agent_reasoning_section_break")]
  | .SessionConfigured e =>
    .obj [("type", .str "session_configured"), ("session_id", encStr e.session_id),
          ("model", encStr e.model), ("history_log_id", encNat e.history_log_id),
          ("history_entry_count", encNat e.history_entry_count)]
  | .McpToolCallBegin e =>
    .obj [("type", .str "mcp_tool_call_begin"), ("call_id", encStr e.call_id),
          ("invocation", encMcpInvocation e.invocation)]
  | .McpToolCallEnd e =>
    .obj [("type", .str "mcp_tool_call_end"), ("call_id", encStr e.call_id),
          ("invocation", encMcpInvocation e.invocation),
          ("duration", encDuration e.duration), ("result", encToolResult e.result)]
  | .WebSearchBegin e =>
    .obj [("type", .str "web_search_begin"), ("call_id", encStr e.call_id)]
  | .WebSearchEnd e =>
    .obj [("type", .str "web_search_end"), ("call_id", encStr e.call_id),
          ("query", encStr e.query)]
  | .ExecCommandBegin e =>
    .obj [("type", .str "exec_command_begin"), ("call_id", encStr e.call_id),
          ("command", encList encStr e.command), ("cwd", encStr e.cwd),
          ("parsed_cmd", encList encParsedCommand e.parsed_cmd)]
  | .ExecCommandOutputDelta e =>
    .obj [("type", .str "exec_command_output_delta"), ("call_id", encStr e.call_id),
          ("stream", encExecOutputStream e.stream), ("chunk", encList encNat e.chunk)]
  | .ExecCommandEnd e =>
    .obj [("type", .str "exec_command_end"), ("call_id", encStr e.call_id),
          ("stdout", encStr e.stdout), ("stderr", encStr e.stderr),
          ("aggregated_output", encStr e.aggregated_output),
          ("exit_code", encInt e.exit_code), ("duration", encDuration e.duration),
          ("formatted_output", encStr e.formatted_output)]
  | .ExecApprovalRequest e =>
    .obj (("type", .str "exec_approval_request") :: ("call_id", encStr e.call_id)
      :: ("command", encList encStr e.command) :: ("cwd", encStr e.cwd)
      :: encOptSkip encStr "reason" e.reason)
  | .ApplyPatchApprovalRequest e =>
    .obj (("type", .str "apply_patch_approval_request") :: ("call_id", encStr e.call_id)
      :: ("changes", encAssoc encFileChange e.changes)
      :: (encOptSkip encStr "reason" e.reason
        ++ encOptSkip encStr "grant_root" e.grant_root))
  | .BackgroundEvent e =>
    .obj [("type", .str "background_event"), ("message", encStr e.message)]
  | .StreamError e => .obj [("type", .str "stream_error"), ("message", encStr e.message)]
  | .PatchApplyBegin e =>
    .obj [("type", .str "patch_apply_begin"), ("call_id", encStr e.call_id),
          ("auto_approved", encBool e.auto_approved),
          ("changes", encAssoc encFileChange e.changes)]
  | .PatchApplyEnd e =>
    .obj [("type", .str "patch_apply_end"), ("call_id", encStr e.call_id),
          ("stdout", encStr e.stdout), ("stderr", encStr e.stderr),
          ("success", encBool e.success)]
  | .TurnDiff e => .obj [("type", .str "turn_diff"), ("unified_diff", encStr e.unified_diff)]
  | .GetHistoryEntryResponse e =>
    .obj (("type", .str "get_history_entry_response") :: ("offset", encNat e.offset)
      :: ("log_id", encNat e.log_id) :: encOptSkip encHistoryEntry "entry" e.entry)
  | .McpListToolsResponse e =>
    .obj [("type", .str "mcp_list_tools_response"), ("tools", encAssoc encMcpTool e.tools)]
  | .ListCustomPromptsResponse e =>
    .obj [("type", .str "list_custom_prompts_response"),
          ("custom_prompts", encList encCustomPrompt e.custom_prompts)]
  | .PlanUpdate args =>
    .obj [("type", .str "plan_update"),
          ("explanation", encOptNull encStr args.explanation),
          ("plan", encList encPlanItemArg args.plan)]
  | .TurnAborted e =>
    .obj [("type", .str "turn_aborted"), ("reason", encTurnAbortReason e.reason)]
  | .ShutdownComplete => .obj [("type", .str "shutdown_complete")]
  | .ConversationHistory e =>
    .obj [("type", .str "conversation_history"),
          ("conversation_id", encStr e.conversation_id),
          ("entries", encList encResponseItem e.entries)]

def decEventMsg (j : JVal) : Option EventMsg := do
  let tag ← (j.getField "type").bind decStr
  match tag with
  | "error" => do
    let message ← (j.getField "message").bind decStr
    pure (.Error ⟨message⟩)
  | "task_started" => do
    let model_context_window ← decOptField decNat (j.getField "model_context_window")
    pure (.TaskStarted ⟨model_context_window⟩)
  | "task_complete" => do
    let last_agent_message ← decOptField decStr (j.getField "last_agent_message")
    pure (.TaskComplete ⟨last_agent_message⟩)
  | "token_count" => do
    let input_tokens ← (j.getField "input_tokens").bind decNat
    let cached_input_tokens ← decOptField decNat (j.getField "cached_input_tokens")
    let output_tokens ← (j.getField "output_tokens").bind decNat
    let reasoning_output_tokens ← decOptField decNat (j.getField "reasoning_output_tokens")
    let total_tokens ← (j.getField "total_tokens").bind decNat
    pure (.TokenCount ⟨input_tokens, cached_input_tokens, output_tokens,
      reasoning_output_tokens, total_tokens⟩)
  | "agent_message" => do
    let message ← (j.getField "message").bind decStr
    pure (.AgentMessage ⟨message⟩)
  | "agent_message_delta" => do
    let delta ← (j.getField "delta").bind decStr
    pure (.AgentMessageDelta ⟨delta⟩)
  | "agent_reasoning" => do
    let text ← (j.getField "text").bind decStr
    pure (.AgentReasoning ⟨text⟩)
  | "agent_reasoning_delta" => do
    let delta ← (j.getField "delta").bind decStr
    pure (.AgentReasoningDelta ⟨delta⟩)
  | "agent_reasoning_raw_content" => do
    let text ← (j.getField "text").bind decStr
    pure (.AgentReasoningRawContent ⟨text⟩)
  | "agent_reasoning_raw_content_delta" => do
    let delta ← (j.getField "delta").bind decStr
    pure (.AgentReasoningRawContentDelta ⟨delta⟩)
  | "agent_reasoning_section_break" => pure (.AgentReasoningSectionBreak ⟨⟩)
  | "session_configured" => do
    let session_id ← (j.getField "session_id").bind decStr
    let model ← (j.getField "model").bind decStr
    let history_log_id ← (j.getField "history_log_id").bind decNat
    let history_entry_count ← (j.getField "history_entry_count").bind decNat
    pure (.SessionConfigured ⟨session_id, model, history_log_id, history_entry_count⟩)
  | "mcp_tool_call_begin" => do
    let call_id ← (j.getField "call_id").bind decStr
    let invocation ← (j.getField "invocation").bind decMcpInvocation
    pure (.McpToolCallBegin ⟨call_id, invocation⟩)
  | "mcp_tool_call_end" => do
    let call_id ← (j.getField "call_id").bind decStr
    let invocation ← (j.getField "invocation").bind decMcpInvocation
    let duration ← (j.getField "duration").bind decDuration
    let result ← (j.getField "result").bind decToolResult
    pure (.McpToolCallEnd ⟨call_id, invocation, duration, result⟩)
  | "web_search_begin" => do
    let call_id ← (j.getField "call_id").bind decStr
    pure (.WebSearchBegin ⟨call_id⟩)
  | "web_search_end" => do
    let call_id ← (j.getField "call_id").bind decStr
    let query ← (j.getField "query").bind decStr
    pure (.WebSearchEnd ⟨call_id, query⟩)
  | "exec_command_begin" => do
    let call_id ← (j.getField "call_id").bind decStr
    let command ← (j.getField "command").bind (decList decStr)
    let cwd ← (j.getField "cwd").bind decStr
    let parsed_cmd ← (j.getField "parsed_cmd").bind (decList decParsedCommand)
    pure (.ExecCommandBegin ⟨call_id, command, cwd, parsed_cmd⟩)
  | "exec_command_output_delta" => do
    let call_id ← (j.getField "call_id").bind decStr
    let stream ← (j.getField "stream").bind decExecOutputStream
    let chunk ← (j.getField "chunk").bind (decList decNat)
    pure (.ExecCommandOutputDelta ⟨call_id, stream, chunk⟩)
  | "exec_command_end" => do
    let call_id ← (j.getField "call_id").bind decStr
    let stdout ← (j.getField "stdout").bind decStr
    let stderr ← (j.getField "stderr").bind decStr
    let aggregated_output ← match j.getField "aggregated_output" with
      | none => pure ""
      | some v => decStr v
    let exit_code ← (j.getField "exit_code").bind decInt
    let duration ← (j.getField "duration").bind decDuration
    let formatted_output ← (j.getField "formatted_output").bind decStr
    pure (.ExecCommandEnd ⟨call_id, stdout, stderr, aggregated_output, exit_code,
      duration, formatted_output⟩)
  | "exec_approval_request" => do
    let call_id ← (j.getField "call_id").bind decStr
    let command ← (j.getField "command").bind (decList decStr)
    let cwd ← (j.getField "cwd").bind decStr
    let reason ← decOptField decStr (j.getField "reason")
    pure (.ExecApprovalRequest ⟨call_id, command, cwd, reason⟩)
  | "apply_patch_approval_request" => do
    let call_id ← (j.getField "call_id").bind decStr
    let changes ← (j.getField "changes").bind (decAssoc decFileChange)
    let reason ← decOptField decStr (j.getField "reason")
    let grant_root ← decOptField decStr (j.getField "grant_root")
    pure (.ApplyPatchApprovalRequest ⟨call_id, changes, reason, grant_root⟩)
  | "background_event" => do
    let message ← (j.getField "message").bind decStr
    pure (.BackgroundEvent ⟨message⟩)
  | "stream_error" => do
    let message ← (j.getField "message").bind decStr
    pure (.StreamError ⟨message⟩)
  | "patch_apply_begin" => do
    let call_id ← (j.getField "call_id").bind decStr
    let auto_approved ← (j.getField "auto_approved").bind decBool
    let changes ← (j.getField "changes").bind (decAssoc decFileChange)
    pure (.PatchApplyBegin ⟨call_id, auto_approved, changes⟩)
  | "patch_apply_end" => do
    let call_id ← (j.getField "call_id").bind decStr
    let stdout ← (j.getField "stdout").bind decStr
    let stderr ← (j.getField "stderr").bind decStr
    let success ← (j.getField "success").bind decBool
    pure (.PatchApplyEnd ⟨call_id, stdout, stderr, success⟩)
  | "turn_diff" => do
    let unified_diff ← (j.getField "unified_diff").bind decStr
    pure (.TurnDiff ⟨unified_diff⟩)
  | "get_history_entry_response" => do
    let offset ← (j.getField "offset").bind decNat
    let log_id ← (j.getField "log_id").bind decNat
    let entry ← decOptField decHistoryEntry (j.getField "entry")
    pure (.GetHistoryEntryResponse ⟨offset, log_id, entry⟩)
  | "mcp_list_tools_response" => do
    let tools ← (j.getField "tools").bind (decAssoc decMcpTool)
    pure (.McpListToolsResponse ⟨tools⟩)
  | "list_custom_prompts_response" => do
    let custom_prompts ← (j.getField "custom_prompts").bind (decList decCustomPrompt)
    pure (.ListCustomPromptsResponse ⟨custom_prompts⟩)
  | "plan_update" => do
    let explanation ← decOptField decStr (j.getField "explanation")
    let plan ← (j.getField "plan").bind (decList decPlanItemArg)
    pure (.PlanUpdate ⟨explanation, plan⟩)
  | "turn_aborted" => do
    let reason ← (j.getField "reason").bind decTurnAbortReason
    pure (.TurnAborted ⟨reason⟩)
  | "shutdown_complete" => pure .ShutdownComplete
  | "conversation_history" => do
    let conversation_id ← (j.getField "conversation_id").bind decStr
    let entries ← (j.getField "entries").bind (decList decResponseItem)
    pure (.ConversationHistory ⟨conversation_id, entries⟩)
  | _ => none

@[simp] theorem decOptField_map_encHistoryEntry (o : Option HistoryEntry) :
    decOptField decHistoryEntry (Option.map encHistoryEntry o) = some o := by
  rcases o with _ | e
  · rfl
  · show decOptField decHistoryEntry (some (encHistoryEntry e)) = some (some e)
    rw [decOptField_some_of_notNull decHistoryEntry (encHistoryEntry e) (by rfl),
      decHistoryEntry_encHistoryEntry]
    rfl

/-- Whether every raw `arguments` value inside the message is not the explicit
JSON `null` (serde folds `Some(Null)` into `None` when decoding, so such
values cannot round-trip). -/
def EventMsg.argumentsOk : EventMsg → Bool
  | .McpToolCallBegin e => e.invocation.argumentsOk
  | .McpToolCallEnd e => e.invocation.argumentsOk
  | _ => true

set_option maxHeartbeats 3200000 in
theorem decEventMsg_encEventMsg (m : EventMsg) (h : m.argumentsOk = true) :
    decEventMsg (encEventMsg m) = some m := by
  cases m <;>
    first
      | rfl
      | (simp only [EventMsg.argumentsOk] at h
         simp [decEventMsg, encEventMsg, JVal.getField, h,
           decMcpInvocation_encMcpInvocation,
           decList_encList encStr decStr (fun a => rfl),
           decList_encList encNat decNat decNat_encNat,
           decList_encList encParsedCommand decParsedCommand (fun a => rfl),
           decList_encList encCustomPrompt decCustomPrompt (fun a => rfl),
           decList_encList encResponseItem decResponseItem (fun a => rfl),
           decList_encList encPlanItemArg decPlanItemArg decPlanItemArg_encPlanItemArg,
           decAssoc_encAssoc encFileChange decFileChange decFileChange_encFileChange,
           decAssoc_encAssoc encMcpTool decMcpTool (fun a => rfl)])

/-- Embedding of `Event` from `protocol.rs`. -/
structure Event where
  id : String
  msg : EventMsg

def encEvent (e : Event) : JVal :=
  .obj [("id", encStr e.id), ("msg", encEventMsg e.msg)]

def decEvent (j : JVal) : Option Event := do
  let id ← (j.getField "id").bind decStr
  let msg ← (j.getField "msg").bind decEventMsg
  pure ⟨id, msg⟩

def Event.argumentsOk (e : Event) : Bool := e.msg.argumentsOk

/-- C5 counterexample: the round-trip claim fails as stated. An
`McpToolCallBegin` event whose invocation carries `arguments = Some(Null)`
encodes its `arguments` field as JSON `null`, which decodes back to `None`:
serde's `Option<serde_json::Value>` cannot distinguish an absent value from an
explicit JSON `null`. -/
theorem wire_round_trip_counterexample :
    decEvent (encEvent ⟨"1", .McpToolCallBegin ⟨"c1", ⟨"srv", "tool", some .null⟩⟩⟩) ≠
      some ⟨"1", .McpToolCallBegin ⟨"c1", ⟨"srv", "tool", some .null⟩⟩⟩ := by
  intro heq
  have hdec : decEvent (encEvent ⟨"1", .McpToolCallBegin ⟨"c1", ⟨"srv", "tool", some .null⟩⟩⟩) =
      some ⟨"1", .McpToolCallBegin ⟨"c1", ⟨"srv", "tool", none⟩⟩⟩ := rfl
  rw [hdec] at heq
  have hval := congrArg (fun o : Option Event =>
    match o with
    | some ev =>
      match ev.msg with
      | EventMsg.McpToolCallBegin e => e.invocation.arguments
      | _ => none
    | none => none) heq
  exact Option.noConfusion hval

/-- C5 (amended): decoding inverts encoding for every `Submission`, and for
every `Event` in which no MCP invocation carries an `arguments` value equal to
the explicit JSON `null` (such values are collapsed to `None` by serde and are
the single class of non-round-tripping values). -/
theorem wire_round_trip :
    (∀ s : Submission, decSubmission (encSubmission s) = some s) ∧
    (∀ e : Event, e.argumentsOk = true → decEvent (encEvent e) = some e) := by
  constructor
  · exact decSubmission_encSubmission
  · intro e h
    rcases e with ⟨id, msg⟩
    simp [decEvent, encEvent, JVal.getField, decEventMsg_encEventMsg msg h]

/-- Closed witness for C5's amended round-trip at a concrete submission and a
concrete event. -/
theorem wire_round_trip_witness :
    decSubmission (encSubmission ⟨"7", .UserInput [.Text "hello"]⟩) =
        some ⟨"7", .UserInput [.Text "hello"]⟩ ∧
      decEvent (encEvent ⟨"", .SessionConfigured ⟨"67e55044", "codex-mini-latest", 0, 0⟩⟩) =
        some ⟨"", .SessionConfigured ⟨"67e55044", "codex-mini-latest", 0, 0⟩⟩ :=
  ⟨wire_round_trip.1 ⟨"7", .UserInput [.Text "hello"]⟩,
   wire_round_trip.2 ⟨"", .SessionConfigured ⟨"67e55044", "codex-mini-latest", 0, 0⟩⟩ rfl⟩

end Wire

/-! ## Conversation manager (`conversation_manager.rs`) -/

/-- Embedding of the `error::CodexErr` cases the conversation manager uses. -/
inductive CodexErr where
  | SessionConfiguredNotFirstEvent
  | ConversationNotFound (conversation_id : String)

/-- Modelled from the spec: `INITIAL_SUBMIT_ID` (defined in `codex.rs`, which
is outside the sources) is the fixed submission id `""` carried by unsolicited
session-scoped events such as the initial configuration. -/
def INITIAL_SUBMIT_ID : String := ""

/-- Embedding of `NewConversation` from `conversation_manager.rs`, polymorphic
in the type of the conversation handle (`Arc<CodexConversation>` in the
source). Uuids are represented by their string form. -/
structure NewConversation (κ : Type) where
  conversation_id : String
  conversation : κ
  session_configured : Wire.SessionConfiguredEvent

/-- `HashMap::insert` on the conversation map, modelled on an association
list: binds the key, replacing any existing binding. -/
def insertConversation (m : List (String × κ)) (conversation_id : String) (conversation : κ) :
    List (String × κ) :=
  (conversation_id, conversation) :: m.filter (fun kv => kv.1 != conversation_id)

/-- Embedding of `ConversationManager::finalize_spawn` from
`conversation_manager.rs`. The session's first event is passed explicitly
(the source awaits it from the freshly spawned session), and wrapping the
codex handle in `CodexConversation::new` is modelled as the identity on the
handle. Returns the updated conversation map together with the
`NewConversation` result. -/
def finalize_spawn (conversations : List (String × κ)) (codex : κ)
    (conversation_id : String) (firstEvent : Wire.Event) :
    Except CodexErr (List (String × κ) × NewConversation κ) :=
  match firstEvent with
  | ⟨id, Wire.EventMsg.SessionConfigured session_configured⟩ =>
    if id = INITIAL_SUBMIT_ID then
      .ok (insertConversation conversations conversation_id codex,
        ⟨conversation_id, codex, session_configured⟩)
    else .error .SessionConfiguredNotFirstEvent
  | _ => .error .SessionConfiguredNotFirstEvent

/-- C4: `finalize_spawn` succeeds exactly when the session's first event is
`SessionConfigured` with id `INITIAL_SUBMIT_ID`, in which case the
conversation is inserted into the manager's map and returned; any other first
event yields `SessionConfiguredNotFirstEvent`. -/
theorem finalize_spawn_correct {κ : Type} (conversations : List (String × κ)) (codex : κ)
    (conversation_id : String) (e : Wire.Event) :
    (∀ sc, e.msg = .SessionConfigured sc → e.id = INITIAL_SUBMIT_ID →
      finalize_spawn conversations codex conversation_id e =
        .ok (insertConversation conversations conversation_id codex,
          ⟨conversation_id, codex, sc⟩)) ∧
    (((∀ sc, e.msg ≠ .SessionConfigured sc) ∨ e.id ≠ INITIAL_SUBMIT_ID) →
      finalize_spawn conversations codex conversation_id e =
        .error .SessionConfiguredNotFirstEvent) := by
  rcases e with ⟨id, msg⟩
  constructor
  · intro sc hmsg hid
    subst hmsg
    subst hid
    rfl
  · intro hcond
    cases msg
    case SessionConfigured sc =>
      rcases hcond with hne | hid
      · exact absurd rfl (hne sc)
      · simp [finalize_spawn, hid]
    all_goals rfl

/-- Closed witness for C4: a `SessionConfigured` first event with the initial
submit id succeeds and inserts the conversation; a `TaskStarted` first event
fails with `SessionConfiguredNotFirstEvent`. -/
theorem finalize_spawn_correct_witness :
    finalize_spawn ([] : List (String × Unit)) () "conv-1"
        ⟨"", .SessionConfigured ⟨"abc", "model-a", 0, 0⟩⟩ =
      .ok ([("conv-1", ())], ⟨"conv-1", (), ⟨"abc", "model-a", 0, 0⟩⟩) ∧
    finalize_spawn ([] : List (String × Unit)) () "conv-1"
        ⟨"", .TaskStarted ⟨none⟩⟩ =
      .error .SessionConfiguredNotFirstEvent :=
  ⟨(finalize_spawn_correct [] () "conv-1" ⟨"", .SessionConfigured ⟨"abc", "model-a", 0, 0⟩⟩).1
      ⟨"abc", "model-a", 0, 0⟩ rfl rfl,
   (finalize_spawn_correct [] () "conv-1" ⟨"", .TaskStarted ⟨none⟩⟩).2
      (Or.inl (fun _ hsc => Wire.EventMsg.noConfusion hsc))⟩

end Codex
